import Mathlib

/-!
# pod-status-check: the pod evaluation and the reporting of its outcome

A shallow embedding of `cmd/pod-status-check/main.go`.

* A pod is the record of the four fields the check reads.
* Strings are sequences of code points, that is valid UTF-8.
* Instants are integers (nanoseconds since the Unix epoch); a `time.Duration`
  is an `int64` count of nanoseconds, so `-skipDuration` is computed modulo
  `2^64`. `Time.Add` and `Time.After` are exact on instants: a `time.Time`
  counts seconds in an `int64`, out of reach of a clock reading moved by one
  duration, and a creation timestamp carries no monotonic reading.
* The outside world of one run is a `World` record: the environment variables,
  the clock, the standard library's duration parser, the Kubernetes client
  constructor and the answers of the two reporter calls.
* A call either returns to its caller or ends the process (`os.Exit`); a `Run`
  carries that together with the reporter calls made so far, in order.
* Log output has no effect on any result and is left out; `log.Fatalln`
  is kept as what it does to control flow, ending the process with status 1.
-/

namespace PodStatusCheck

/-! ## Data model -/

/-- The fields of `v1.Pod` read by the check: `ObjectMeta.Name`,
`ObjectMeta.Namespace`, `ObjectMeta.CreationTimestamp` and `Status.Phase`. -/
structure Pod where
  Name : String
  Namespace : String
  CreationTimestamp : Int
  Phase : String
deriving DecidableEq, Repr

/-- The constant `v1.PodPending`. -/
def PodPending : String := "Pending"
/-- The constant `v1.PodRunning`. -/
def PodRunning : String := "Running"
/-- The constant `v1.PodSucceeded`. -/
def PodSucceeded : String := "Succeeded"
/-- The constant `v1.PodFailed`. -/
def PodFailed : String := "Failed"
/-- The constant `v1.PodUnknown`. -/
def PodUnknown : String := "Unknown"

/-- The constant `v1.NamespaceAll`. -/
def NamespaceAll : String := ""

/-- The label selector of the list call. -/
def LabelSelector : String := "app!=kuberhealthy-check,source!=kuberhealthy"

/-! ## Time -/

/-- The least `int64`, which is the least `time.Duration`. -/
def minInt64 : Int := -9223372036854775808
/-- The greatest `int64`, which is the greatest `time.Duration`. -/
def maxInt64 : Int := 9223372036854775807

/-- Reduction of an integer to the `int64` it is stored as (two's complement). -/
def wrapInt64 (x : Int) : Int := (x + 9223372036854775808) % 18446744073709551616 - 9223372036854775808

/-- Unary minus on a `time.Duration`: the `int64` negation, which wraps. -/
def negDuration (d : Int) : Int := wrapInt64 (-d)

/-- The method `Time.Add`, on instants counted in nanoseconds. -/
def Add (t : Int) (d : Int) : Int := t + d

/-- The method `Time.After`: strictly later. -/
def After (t u : Int) : Bool := decide (t > u)

/-! ## The duration parser of the standard library

A model of `time.ParseDuration` on the characters of the string. The Go
function walks bytes; the bytes it tests for (sign, digits, the period) are
ASCII, so walking code points is the same on a valid UTF-8 string. -/

/-- Digit `n` of the constant `lowerhex`. -/
def lowerhex (n : Nat) : Char :=
  if n < 10 then Char.ofNat (48 + n) else Char.ofNat (87 + n)

/-- The characters `quote` writes for one code point. -/
def quoteChar (c : Char) : List Char :=
  if c.toNat ≥ 128 ∨ c.toNat < 32 then
    (String.utf8EncodeChar c).flatMap fun b =>
      [Char.ofNat 92, 'x', lowerhex (b.toNat / 16), lowerhex (b.toNat % 16)]
  else if c = Char.ofNat 34 ∨ c = Char.ofNat 92 then
    [Char.ofNat 92, c]
  else
    [c]

/-- The function `quote` of package `time`: the string in double quotes, with
quotes and backslashes escaped and non-printable bytes in hexadecimal. -/
def quote (s : String) : String :=
  String.mk ([Char.ofNat 34] ++ s.data.flatMap quoteChar ++ [Char.ofNat 34])

/-- The table `unitMap`: nanoseconds per unit. -/
def unitMap (u : String) : Option Nat :=
  if u = "ns" then some 1
  else if u = "us" then some 1000
  else if u = String.mk [Char.ofNat 181, 's'] then some 1000
  else if u = String.mk [Char.ofNat 956, 's'] then some 1000
  else if u = "ms" then some 1000000
  else if u = "s" then some 1000000000
  else if u = "m" then some 60000000000
  else if u = "h" then some 3600000000000
  else none

/-- The function `leadingInt`: the leading decimal digits as a number and the
rest, or `none` when the number passes `1<<63`. -/
def leadingInt : List Char → Nat → Option (Nat × List Char)
  | [], x => some (x, [])
  | c :: cs, x =>
    if c < '0' ∨ c > '9' then some (x, c :: cs)
    else if x > 9223372036854775808 / 10 then none
    else
      let x := x * 10 + (c.toNat - 48)
      if x > 9223372036854775808 then none else leadingInt cs x

/-- The function `leadingFraction`: the leading digits as a number, the power
of ten `scale` they are divided by, and the rest; digits past what fits are
dropped. -/
def leadingFraction : List Char → Nat → Nat → Bool → Nat × Nat × List Char
  | [], x, scale, _ => (x, scale, [])
  | c :: cs, x, scale, overflow =>
    if c < '0' ∨ c > '9' then (x, scale, c :: cs)
    else if overflow then leadingFraction cs x scale overflow
    else if x > (9223372036854775808 - 1) / 10 then leadingFraction cs x scale true
    else
      let y := x * 10 + (c.toNat - 48)
      if y > 9223372036854775808 then leadingFraction cs x scale true
      else leadingFraction cs y (scale * 10) false

/-- Number of binary digits of `n`, for `n < 2 ^ fuel`. -/
def bitLength : Nat → Nat → Nat
  | 0, _ => 0
  | fuel + 1, n => if n = 0 then 0 else bitLength fuel (n / 2) + 1

/-- The `float64` nearest to the positive rational `n / d` (ties to the even
significand), as a numerator and a power-of-two denominator. Every value the
parser forms lies in the range of normal numbers. -/
def roundFloat64 (n d : Nat) : Nat × Nat :=
  if n = 0 ∨ d = 0 then (0, 1) else
  let e0 : Int := (bitLength (n + 1) n : Int) - (bitLength (d + 1) d : Int) - 52
  let up (e : Int) : Nat := n * 2 ^ (-e).toNat
  let dn (e : Int) : Nat := d * 2 ^ e.toNat
  let e : Int := if up e0 / dn e0 < 4503599627370496 then e0 - 1 else e0
  let m := up e / dn e
  let r := up e % dn e
  let m := if 2 * r > dn e ∨ (2 * r = dn e ∧ m % 2 = 1) then m + 1 else m
  (m * 2 ^ e.toNat, 2 ^ (-e).toNat)

/-- The expression `uint64(float64(f) * (float64(unit) / scale))`. -/
def fractionNanos (f unit scale : Nat) : Nat :=
  let a := roundFloat64 f 1
  let b := roundFloat64 unit scale
  let p := roundFloat64 (a.1 * b.1) (a.2 * b.2)
  p.1 / p.2

/-- The message of the error for a string that is not a duration. -/
def invalidDuration (orig : String) : String := "time: invalid duration " ++ quote orig

/-- Whether a byte ends a unit name: a period or a digit. -/
def endsUnit (c : Char) : Bool := c = '.' ∨ ('0' ≤ c ∧ c ≤ '9')

/-- The step of `ParseDuration` that consumes an optional period and the
digits after it: whether a digit was consumed (`post`), the digits as a number
(`f`), the power of ten they are divided by (`scale`), and the rest. -/
def fractionPart (s : List Char) : Bool × Nat × Nat × List Char :=
  match s with
  | [] => (false, 0, 1, s)
  | c :: s1 =>
    if c = '.' then
      let r := leadingFraction s1 0 1 false
      (decide (s1.length ≠ r.2.2.length), r.1, r.2.1, r.2.2)
    else (false, 0, 1, s)

/-- One round of the loop `for s != ""` of `ParseDuration`, on the string
`c :: cs`: a number, an optional fraction and a unit are consumed and added
to `d` in `uint64`; the result is the rest of the string and the new `d`. -/
def parseGroup (orig : String) (c : Char) (cs : List Char) (d : Nat) :
    Except String (List Char × Nat) :=
  if ¬ (c = '.' ∨ ('0' ≤ c ∧ c ≤ '9')) then .error (invalidDuration orig) else
  let pl := (c :: cs).length
  match leadingInt (c :: cs) 0 with
  | none => .error (invalidDuration orig)
  | some (v, s) =>
    let pre := pl ≠ s.length
    let frac := fractionPart s
    let post := frac.1
    let f := frac.2.1
    let scale := frac.2.2.1
    let s := frac.2.2.2
    if ¬ pre ∧ ¬ post then .error (invalidDuration orig) else
    let u := s.takeWhile fun c => ! endsUnit c
    let s := s.dropWhile fun c => ! endsUnit c
    if u.length = 0 then .error ("time: missing unit in duration " ++ quote orig) else
    match unitMap (String.mk u) with
    | none => .error ("time: unknown unit " ++ quote (String.mk u) ++ " in duration " ++ quote orig)
    | some unit =>
      if v > 9223372036854775808 / unit then .error (invalidDuration orig) else
      let v := v * unit
      let v := if f > 0 then (v + fractionNanos f unit scale) % 18446744073709551616 else v
      if f > 0 ∧ v > 9223372036854775808 then .error (invalidDuration orig) else
      let d := (d + v) % 18446744073709551616
      if d > 9223372036854775808 then .error (invalidDuration orig) else
      .ok (s, d)

/-- The loop `for s != ""` of `ParseDuration`. Every round consumes a
character, so the length of the string is enough fuel (`parseGroups_fuel`). -/
def parseGroups (orig : String) : Nat → List Char → Nat → Except String Nat
  | _, [], d => .ok d
  | 0, _ :: _, _ => .error (invalidDuration orig)
  | fuel + 1, c :: cs, d =>
    match parseGroup orig c cs d with
    | .error e => .error e
    | .ok (s, d) => parseGroups orig fuel s d

/-- The function `time.ParseDuration`: the duration in nanoseconds, or the
message of the error. -/
def ParseDuration (s : String) : Except String Int :=
  let orig := s
  let signed : Bool × List Char :=
    match s.data with
    | [] => (false, [])
    | c :: cs => if c = '-' ∨ c = '+' then (decide (c = '-'), cs) else (false, c :: cs)
  let neg := signed.1
  let s := signed.2
  if s = ['0'] then .ok 0
  else if s = [] then .error (invalidDuration orig)
  else
    match parseGroups orig s.length s 0 with
    | .error e => .error e
    | .ok d =>
      if neg then .ok (negDuration (wrapInt64 d))
      else if d > 9223372036854775808 - 1 then .error (invalidDuration orig)
      else .ok d

/-! ## The pass over the pods -/

/-- The failure string appended for an unhealthy pod. -/
def failureEntry (pod : Pod) : String :=
  "pod: " ++ pod.Name ++ " in namespace: " ++ pod.Namespace ++ " is in pod status phase " ++ pod.Phase ++ " "

/-- The body of the `for _, pod := range pods.Items` loop of `findPodsNotRunning`,
with `failures` threaded through as the accumulator that `append` extends. -/
def podLoop (skipBarrier : Int) : List Pod → List String → List String
  | [], failures => failures
  | pod :: rest, failures =>
    if After pod.CreationTimestamp skipBarrier then
      podLoop skipBarrier rest failures
    else if pod.Phase = PodRunning then
      podLoop skipBarrier rest failures
    else if pod.Phase = PodSucceeded then
      podLoop skipBarrier rest failures
    else if pod.Phase = PodPending then
      podLoop skipBarrier rest (failures ++ [failureEntry pod])
    else if pod.Phase = PodFailed then
      podLoop skipBarrier rest (failures ++ [failureEntry pod])
    else if pod.Phase = PodUnknown then
      podLoop skipBarrier rest (failures ++ [failureEntry pod])
    else
      podLoop skipBarrier rest failures

/-! ## Processes -/

/-- A call made to the reporter (`checkclient`). -/
inductive ReporterCall where
  | ReportSuccess
  | ReportFailure (messages : List String)
deriving DecidableEq, Repr

/-- How a call ends: it returns a value, or `os.Exit` ends the process. -/
inductive Ctl (α : Type) where
  | returned (value : α)
  | exited (status : Nat)
deriving DecidableEq, Repr

/-- The reporter calls made, in order, and how the call ended. -/
structure Run (α : Type) where
  calls : List ReporterCall
  ctl : Ctl α
deriving DecidableEq, Repr

/-- A call that returns at once. -/
def Run.ret {α : Type} (a : α) : Run α := ⟨[], .returned a⟩

/-- A call to `os.Exit`. -/
def Run.osExit {α : Type} (status : Nat) : Run α := ⟨[], .exited status⟩

/-- Sequencing: what follows a call runs only when the call returned. -/
def Run.andThen {α β : Type} (r : Run α) (k : α → Run β) : Run β :=
  match r.ctl with
  | .exited status => ⟨r.calls, .exited status⟩
  | .returned a => ⟨r.calls ++ (k a).calls, (k a).ctl⟩

/-- The client call `CoreV1().Pods(namespace).List(ctx, ListOptions)`: from the
namespace and the label selector to the pods, or an error message. -/
abbrev Client := String → String → Except String (List Pod)

/-- The dependencies of the check (`type Options struct`). -/
structure Options where
  client : Client

/-- Everything one run reads from outside the program. -/
structure World where
  /-- Value of `os.Getenv("KUBECONFIG")`. -/
  KUBECONFIG : String
  /-- Value of `os.Getenv("SKIP_DURATION")`. -/
  SKIP_DURATION : String
  /-- Value of `os.Getenv("TARGET_NAMESPACE")`. -/
  TARGET_NAMESPACE : String
  /-- The function `createKubeClient`, declared outside `main.go`. -/
  createKubeClient : String → Except String Client
  /-- The function `time.ParseDuration`: nanoseconds, or an error message. -/
  ParseDuration : String → Except String Int
  /-- The reading of `time.Now()`. -/
  Now : Int
  /-- The error returned by `checkclient.ReportSuccess`, `none` for `nil`. -/
  ReportSuccess : Option String
  /-- The error returned by `checkclient.ReportFailure`, `none` for `nil`. -/
  ReportFailure : List String → Option String

/-- A call of `checkclient.ReportFailure`: recorded, and answered by the world. -/
def callReportFailure (w : World) (messages : List String) : Run (Option String) :=
  ⟨[.ReportFailure messages], .returned (w.ReportFailure messages)⟩

/-- A call of `checkclient.ReportSuccess`: recorded, and answered by the world. -/
def callReportSuccess (w : World) : Run (Option String) :=
  ⟨[.ReportSuccess], .returned w.ReportSuccess⟩

/-- The function `reportFailureAndExit`. -/
def reportFailureAndExit (w : World) (err : String) : Run Unit :=
  Run.andThen (callReportFailure w [err]) fun reportErr =>
    match reportErr with
    | some _ => Run.osExit 1
    | none => Run.osExit 1

/-- The function `reportFailureListAndExit`. -/
def reportFailureListAndExit (w : World) (failures : List String) : Run Unit :=
  Run.andThen (callReportFailure w failures) fun err =>
    match err with
    | some _ => Run.osExit 1
    | none => Run.osExit 1

/-- The threshold `checkTime.Add(-skipDuration)`. -/
def skipBarrier (checkTime : Int) (skipDuration : Int) : Int :=
  Add checkTime (negDuration skipDuration)

/-- The method `Options.findPodsNotRunning`: the failure list and the error
(`none` for `nil`) it returns, unless it ends the process. -/
def findPodsNotRunning (o : Options) (w : World) : Run (List String × Option String) :=
  let failures : List String := []
  let skipDurationEnv := w.SKIP_DURATION
  let ns := w.TARGET_NAMESPACE
  let ns := if ns = "" then NamespaceAll else ns
  match o.client ns LabelSelector with
  | .error err => Run.ret (failures, some err)
  | .ok pods =>
    match w.ParseDuration skipDurationEnv with
    | .error err =>
      Run.andThen (reportFailureAndExit w ("failed to parse skip duration: " ++ err)) fun _ =>
        Run.ret (failures, some err)
    | .ok skipDuration =>
      let checkTime := w.Now
      Run.ret (podLoop (skipBarrier checkTime skipDuration) pods failures, none)

/-- The function `main`. -/
def main (w : World) : Run Unit :=
  let kubeConfigFile := w.KUBECONFIG
  match w.createKubeClient kubeConfigFile with
  | .error _ => Run.osExit 1
  | .ok client =>
    let o : Options := ⟨client⟩
    Run.andThen (findPodsNotRunning o w) fun (failures, err) =>
      match err with
      | some e => Run.andThen (reportFailureAndExit w e) fun _ => Run.ret ()
      | none =>
        if failures.length ≥ 1 then
          Run.andThen (reportFailureListAndExit w failures) fun _ => Run.ret ()
        else
          Run.andThen (callReportSuccess w) fun err =>
            match err with
            | some _ => Run.osExit 1
            | none => Run.ret ()

/-- The exit status of the process: the argument of `os.Exit`, and 0 when
`main` returns. -/
def exitStatus (r : Run Unit) : Nat :=
  match r.ctl with
  | .exited status => status
  | .returned _ => 0

/-! ## The inventory and the fixtures of the examples -/

/-- Modelled from the spec: the Inventory Source, a set of pods (those the
label exclusion lets through) queried by namespace, the empty namespace
standing for all namespaces. It keeps the order of the set. -/
def inventory (cluster : List Pod) : Client := fun ns _ =>
  .ok (cluster.filter fun p => decide (ns = NamespaceAll ∨ p.Namespace = ns))

/-- A client whose list call answers with the given pods. -/
def staticClient (pods : List Pod) : Client := fun _ _ => .ok pods

/-- The zero `time.Time` (January 1, year 1, 00:00 UTC), the creation
timestamp of a pod built without one. -/
def zeroTime : Int := -62135596800000000000

/-- The pods of `getTestPods` in `main_test.go`, in the order in which the
fake clientset of the test lists them: bar-pod before foo-pod, as the test
expects for the query over all namespaces. -/
def getTestPods : List Pod :=
  [⟨"bar-pod", "bar", zeroTime, PodPending⟩, ⟨"foo-pod", "foo", zeroTime, PodPending⟩]

/-- The evaluation time of the examples: January 1, 2026, 00:00 UTC. -/
def exampleNow : Int := 1767225600000000000

/-- One minute, the constant `time.Minute`. -/
def Minute : Int := 60000000000

/-- A world for the examples: the given environment, a client over the given
pods, the standard duration parser, and a reporter that accepts every call. -/
def exampleWorld (skipDuration targetNamespace : String) (cluster : List Pod) : World where
  KUBECONFIG := ""
  SKIP_DURATION := skipDuration
  TARGET_NAMESPACE := targetNamespace
  createKubeClient := fun _ => .ok (staticClient cluster)
  ParseDuration := ParseDuration
  Now := exampleNow
  ReportSuccess := none
  ReportFailure := fun _ => none

/-- A world whose list call fails. -/
def unreachableCluster : World :=
  { exampleWorld "10m" "" [] with
    createKubeClient := fun _ => .ok fun _ _ => .error "connection refused" }

/-- A world whose Kubernetes client cannot be created. -/
def missingKubeConfig : World :=
  { exampleWorld "10m" "" [] with
    createKubeClient := fun _ => .error "invalid configuration: no configuration has been provided" }

/-! ## Lemmas -/

/-- The rest left by `leadingInt` is no longer than its input. -/
theorem leadingInt_length (s : List Char) (x v : Nat) (r : List Char)
    (h : leadingInt s x = some (v, r)) : r.length ≤ s.length := by
  induction s generalizing x with
  | nil => simp [leadingInt] at h; simp [h.2.symm]
  | cons c cs ih =>
    rw [leadingInt] at h
    dsimp only at h
    split_ifs at h
    · simp at h; simp [← h.2]
    · exact Nat.le_succ_of_le (ih _ h)

/-- The rest left by `leadingFraction` is no longer than its input. -/
theorem leadingFraction_length (s : List Char) (x scale : Nat) (o : Bool) :
    (leadingFraction s x scale o).2.2.length ≤ s.length := by
  induction s generalizing x scale o with
  | nil => simp [leadingFraction]
  | cons c cs ih =>
    rw [leadingFraction]
    dsimp only
    split_ifs
    · simp
    all_goals exact Nat.le_succ_of_le (ih _ _ _)

/-- Dropping a non-empty run of characters shortens the string. -/
theorem dropWhile_length_lt (p : Char → Bool) (s : List Char) (h : (s.takeWhile p).length ≠ 0) :
    (s.dropWhile p).length < s.length := by
  cases s with
  | nil => simp at h
  | cons c cs =>
    by_cases hc : p c = true
    · rw [List.dropWhile_cons_of_pos hc]
      exact Nat.lt_succ_of_le (List.Sublist.length_le (List.dropWhile_sublist p))
    · simp [List.takeWhile, hc] at h

/-- The rest left by `fractionPart` is no longer than its input. -/
theorem fractionPart_length (s : List Char) : (fractionPart s).2.2.2.length ≤ s.length := by
  unfold fractionPart
  split
  · simp
  · split_ifs
    · exact Nat.le_succ_of_le (leadingFraction_length _ _ _ _)
    · simp

/-- A round of the loop of `ParseDuration` consumes at least one character. -/
theorem parseGroup_length (orig : String) (c : Char) (cs : List Char) (d : Nat)
    (s : List Char) (d2 : Nat) (h : parseGroup orig c cs d = .ok (s, d2)) :
    s.length ≤ cs.length := by
  unfold parseGroup at h
  dsimp only at h
  repeat' split at h
  all_goals first
    | (simp only [Except.ok.injEq, Prod.mk.injEq] at h
       obtain ⟨hs, -⟩ := h
       subst hs
       have hr := leadingInt_length _ _ _ _ ‹leadingInt (c :: cs) 0 = some _›
       have hlt := dropWhile_length_lt _ _ ‹¬ (List.takeWhile _ _).length = 0›
       have hf := fractionPart_length ‹List Char›
       simp only [List.length_cons] at hr hlt ⊢
       omega)
    | cases h

/-- The length of the string is enough fuel for the loop of `ParseDuration`:
with at least that much, the result does not depend on the fuel. -/
theorem parseGroups_fuel (orig : String) (fuel : Nat) (s : List Char) (d : Nat)
    (h : s.length ≤ fuel) : parseGroups orig fuel s d = parseGroups orig s.length s d := by
  induction fuel using Nat.strong_induction_on generalizing s d with
  | _ fuel ih =>
    cases s with
    | nil => cases fuel <;> rfl
    | cons c cs =>
      cases fuel with
      | zero => simp at h
      | succ n =>
        simp only [List.length_cons] at h ⊢
        rw [parseGroups, parseGroups]
        cases hg : parseGroup orig c cs d with
        | error e => rfl
        | ok r =>
          obtain ⟨s2, d2⟩ := r
          have hl := parseGroup_length orig c cs d s2 d2 hg
          dsimp only
          rw [ih n (Nat.lt_succ_self n) s2 d2 (by omega)]
          by_cases hcs : cs.length = n
          · rw [hcs, ih n (Nat.lt_succ_self n) s2 d2 (by omega)]
          · rw [ih cs.length (by omega) s2 d2 hl]

/-- Reduction to `int64` lands in the range of `int64`. -/
theorem wrapInt64_range (x : Int) : minInt64 ≤ wrapInt64 x ∧ wrapInt64 x ≤ maxInt64 := by
  unfold wrapInt64 minInt64 maxInt64
  omega

/-- A duration returned by `ParseDuration` is an `int64`. -/
theorem ParseDuration_range (s : String) (d : Int) (h : ParseDuration s = .ok d) :
    minInt64 ≤ d ∧ d ≤ maxInt64 := by
  unfold ParseDuration at h
  dsimp only at h
  repeat' split at h
  all_goals first
    | (injection h with h
       subst h
       first
         | decide
         | exact wrapInt64_range _
         | (unfold minInt64 maxInt64; omega))
    | cases h

/-- The loop only appends to the list it starts from. -/
theorem podLoop_acc (b : Int) (pods : List Pod) (acc : List String) :
    podLoop b pods acc = acc ++ podLoop b pods [] := by
  induction pods generalizing acc with
  | nil => simp [podLoop]
  | cons p rest ih =>
    unfold podLoop
    split_ifs
    all_goals first
      | exact ih acc
      | (rw [ih (acc ++ [failureEntry p]), ih ([] ++ [failureEntry p])]; simp)

/-- One round of the loop: an entry for a pod that is not after the barrier and
is Pending, Failed or Unknown, nothing for any other pod. -/
theorem podLoop_cons (b : Int) (p : Pod) (rest : List Pod) :
    podLoop b (p :: rest) [] =
      (if ¬ p.CreationTimestamp > b ∧ (p.Phase = PodPending ∨ p.Phase = PodFailed ∨ p.Phase = PodUnknown)
        then [failureEntry p] else []) ++ podLoop b rest [] := by
  have h1 : PodPending ≠ PodRunning := by decide
  have h2 : PodPending ≠ PodSucceeded := by decide
  have h3 : PodFailed ≠ PodRunning := by decide
  have h4 : PodFailed ≠ PodSucceeded := by decide
  have h5 : PodUnknown ≠ PodRunning := by decide
  have h6 : PodUnknown ≠ PodSucceeded := by decide
  rw [podLoop]
  by_cases hy : p.CreationTimestamp > b
  · simp [After, hy]
  · by_cases hr : p.Phase = PodRunning
    · simp [After, hy, hr, h1.symm, h3.symm, h5.symm]
    · by_cases hs : p.Phase = PodSucceeded
      · simp [After, hy, hs, h2.symm, h4.symm, h6.symm]
      · have hacc : podLoop b rest [failureEntry p] = failureEntry p :: podLoop b rest [] := by
          rw [podLoop_acc]; rfl
        by_cases hp : p.Phase = PodPending
        · simp [After, hy, hp, h1, h2, hacc]
        · by_cases hf : p.Phase = PodFailed
          · simp [After, hy, hf, h3, h4, hacc]
          · by_cases hu : p.Phase = PodUnknown
            · simp [After, hy, hu, h5, h6, hacc]
            · simp [After, hy, hr, hs, hp, hf, hu]

/-- The loop keeps, in order, the entries of the pods it reports. -/
theorem podLoop_eq (b : Int) (pods : List Pod) :
    podLoop b pods [] =
      (pods.filter fun p => decide (¬ p.CreationTimestamp > b ∧
        (p.Phase = PodPending ∨ p.Phase = PodFailed ∨ p.Phase = PodUnknown))).map failureEntry := by
  induction pods with
  | nil => simp [podLoop]
  | cons p rest ih =>
    rw [podLoop_cons, ih, List.filter_cons]
    split_ifs <;> simp_all

/-- Negation is exact on every duration but the least. -/
theorem negDuration_eq (d : Int) (h1 : minInt64 < d) (h2 : d ≤ maxInt64) : negDuration d = -d := by
  unfold negDuration wrapInt64; unfold minInt64 at h1; unfold maxInt64 at h2
  omega

/-- The wrapped negation never exceeds the exact one. -/
theorem negDuration_le (d : Int) (h1 : minInt64 ≤ d) (h2 : d ≤ maxInt64) : negDuration d ≤ -d := by
  unfold negDuration wrapInt64; unfold minInt64 at h1; unfold maxInt64 at h2
  omega



/-- The namespace passed to the list call is the value of `TARGET_NAMESPACE`. -/
theorem queried_namespace (ns : String) : (if ns = "" then NamespaceAll else ns) = ns := by
  by_cases h : ns = ""
  · simp [h, NamespaceAll]
  · simp [h]

/-- When the list call and the parse succeed, the call returns the list of the loop. -/
theorem findPodsNotRunning_ok (o : Options) (w : World) (pods : List Pod) (d : Int)
    (hlist : o.client w.TARGET_NAMESPACE LabelSelector = .ok pods)
    (hparse : w.ParseDuration w.SKIP_DURATION = .ok d) :
    findPodsNotRunning o w = Run.ret (podLoop (skipBarrier w.Now d) pods [], none) := by
  simp only [findPodsNotRunning, queried_namespace, hlist, hparse]

/-- When the list call fails, the call returns its error with an empty list. -/
theorem findPodsNotRunning_list_error (o : Options) (w : World) (e : String)
    (hlist : o.client w.TARGET_NAMESPACE LabelSelector = .error e) :
    findPodsNotRunning o w = Run.ret ([], some e) := by
  simp only [findPodsNotRunning, queried_namespace, hlist]

/-- When the parse fails, the call reports the parse error and ends the process. -/
theorem findPodsNotRunning_parse_error (o : Options) (w : World) (pods : List Pod) (e : String)
    (hlist : o.client w.TARGET_NAMESPACE LabelSelector = .ok pods)
    (hparse : w.ParseDuration w.SKIP_DURATION = .error e) :
    findPodsNotRunning o w =
      ⟨[.ReportFailure ["failed to parse skip duration: " ++ e]], .exited 1⟩ := by
  simp only [findPodsNotRunning, queried_namespace, hlist, hparse, reportFailureAndExit,
    callReportFailure, Run.andThen, Run.osExit, Run.ret]
  cases w.ReportFailure ["failed to parse skip duration: " ++ e] <;> rfl

/-- Pods the loop would not report can be removed from its input. -/
theorem podLoop_filter (b : Int) (pods : List Pod) (keep : Pod → Bool)
    (h : ∀ p ∈ pods, keep p = false →
      ¬ (¬ p.CreationTimestamp > b ∧ (p.Phase = PodPending ∨ p.Phase = PodFailed ∨ p.Phase = PodUnknown))) :
    podLoop b (pods.filter keep) [] = podLoop b pods [] := by
  rw [podLoop_eq, podLoop_eq, List.filter_filter]
  congr 1
  apply List.filter_congr
  intro p hp
  by_cases hk : keep p = true
  · simp [hk]
  · have hk2 : keep p = false := by simpa using hk
    have := h p hp hk2
    simp only [hk2, Bool.and_false, Bool.false_and]
    exact (decide_eq_false this).symm

/-- A sequence holding no pod to report gives the empty list. -/
theorem podLoop_nil_of (b : Int) (pods : List Pod)
    (h : ∀ p ∈ pods,
      ¬ (¬ p.CreationTimestamp > b ∧ (p.Phase = PodPending ∨ p.Phase = PodFailed ∨ p.Phase = PodUnknown))) :
    podLoop b pods [] = [] := by
  rw [podLoop_eq]
  simp only [List.map_eq_nil_iff, List.filter_eq_nil_iff]
  intro p hp
  simpa using h p hp

/-- An entry of the pod list is never the message of a parse failure. -/
theorem failureEntry_ne_parse_failure (p : Pod) (e : String) :
    failureEntry p ≠ "failed to parse skip duration: " ++ e := by
  intro h
  have h2 := congrArg String.data h
  simp only [failureEntry, String.data_append] at h2
  have h3 := congrArg List.head? h2
  simp at h3

/-- How `findPodsNotRunning` ends: it returns having made no reporter call, or
it ends the process with status 1 after one `ReportFailure` call. -/
theorem findPodsNotRunning_ends (o : Options) (w : World) :
    (∃ fs err, findPodsNotRunning o w = Run.ret (fs, err) ∧ (err = none ∨ fs = [])) ∨
    (∃ msg, findPodsNotRunning o w = ⟨[.ReportFailure [msg]], .exited 1⟩) := by
  cases hl : o.client w.TARGET_NAMESPACE LabelSelector with
  | error e => exact Or.inl ⟨[], some e, findPodsNotRunning_list_error o w e hl, Or.inr rfl⟩
  | ok pods =>
    cases hp : w.ParseDuration w.SKIP_DURATION with
    | error e => exact Or.inr ⟨_, findPodsNotRunning_parse_error o w pods e hl hp⟩
    | ok d => exact Or.inl ⟨_, none, findPodsNotRunning_ok o w pods d hl hp, Or.inl rfl⟩

/-- The run of `main` when `findPodsNotRunning` ends the process. -/
theorem main_of_exit (w : World) (client : Client) (calls : List ReporterCall) (status : Nat)
    (hclient : w.createKubeClient w.KUBECONFIG = .ok client)
    (h : findPodsNotRunning ⟨client⟩ w = ⟨calls, .exited status⟩) :
    main w = ⟨calls, .exited status⟩ := by
  simp only [main, hclient, h, Run.andThen]

/-- The run of `main` when `findPodsNotRunning` returns an error. -/
theorem main_of_error (w : World) (client : Client) (fs : List String) (e : String)
    (hclient : w.createKubeClient w.KUBECONFIG = .ok client)
    (h : findPodsNotRunning ⟨client⟩ w = Run.ret (fs, some e)) :
    main w = ⟨[.ReportFailure [e]], .exited 1⟩ := by
  simp only [main, hclient, h, Run.andThen, Run.ret, reportFailureAndExit, callReportFailure,
    Run.osExit]
  cases w.ReportFailure [e] <;> rfl

/-- The run of `main` when `findPodsNotRunning` returns a non-empty list and no error. -/
theorem main_of_failures (w : World) (client : Client) (fs : List String)
    (hclient : w.createKubeClient w.KUBECONFIG = .ok client)
    (h : findPodsNotRunning ⟨client⟩ w = Run.ret (fs, none)) (hne : fs ≠ []) :
    main w = ⟨[.ReportFailure fs], .exited 1⟩ := by
  have hlen : fs.length ≥ 1 := by
    cases fs with
    | nil => exact absurd rfl hne
    | cons a t => simp
  simp only [main, hclient, h, Run.andThen, Run.ret, reportFailureListAndExit, callReportFailure,
    Run.osExit, hlen, if_true]
  cases w.ReportFailure fs <;> rfl

/-- The run of `main` when `findPodsNotRunning` returns the empty list and no error. -/
theorem main_of_healthy (w : World) (client : Client)
    (hclient : w.createKubeClient w.KUBECONFIG = .ok client)
    (h : findPodsNotRunning ⟨client⟩ w = Run.ret ([], none)) :
    main w = ⟨[.ReportSuccess],
      match w.ReportSuccess with
      | some _ => .exited 1
      | none => .returned ()⟩ := by
  simp only [main, hclient, h, Run.andThen, Run.ret, Run.osExit, callReportSuccess]
  cases w.ReportSuccess <;> rfl

/-! ## The claims -/

/-- C1, as amended: when the list call and the parse succeed and the skip
duration is an `int64` other than the least one, `findPodsNotRunning` returns
without error the list that holds, in input order, exactly one entry
`"pod: " + name + " in namespace: " + namespace + " is in pod status phase " + phase + " "`
for each pod that is Pending, Failed or Unknown and whose creation timestamp
is not after `now - skipDuration`; so it has as many entries as there are such pods. -/
theorem unhealthy_old_pods_reported (o : Options) (w : World) (pods : List Pod) (d : Int)
    (hlist : o.client w.TARGET_NAMESPACE LabelSelector = .ok pods)
    (hparse : w.ParseDuration w.SKIP_DURATION = .ok d)
    (hmin : minInt64 < d) (hmax : d ≤ maxInt64) :
    ∃ failures : List String,
      findPodsNotRunning o w = Run.ret (failures, none) ∧
      failures =
        (pods.filter fun p => decide (¬ p.CreationTimestamp > w.Now - d ∧
          (p.Phase = "Pending" ∨ p.Phase = "Failed" ∨ p.Phase = "Unknown"))).map
          (fun p => "pod: " ++ p.Name ++ " in namespace: " ++ p.Namespace ++
            " is in pod status phase " ++ p.Phase ++ " ") ∧
      failures.length =
        pods.countP fun p => decide (¬ p.CreationTimestamp > w.Now - d ∧
          (p.Phase = "Pending" ∨ p.Phase = "Failed" ∨ p.Phase = "Unknown")) := by
  have hb : skipBarrier w.Now d = w.Now - d := by
    rw [skipBarrier, Add, negDuration_eq d hmin hmax]; ring
  refine ⟨_, findPodsNotRunning_ok o w pods d hlist hparse, ?_, ?_⟩
  · rw [podLoop_eq, hb]; rfl
  · rw [podLoop_eq, hb, List.length_map, List.countP_eq_length_filter]; rfl

/-- C1, witness: the pod foo-pod of namespace foo, Pending and created 20
minutes before the evaluation, with skip duration 10m. -/
theorem unhealthy_old_pods_reported_witness :
    findPodsNotRunning ⟨staticClient [⟨"foo-pod", "foo", exampleNow - 20 * Minute, "Pending"⟩]⟩
        (exampleWorld "10m" "" [⟨"foo-pod", "foo", exampleNow - 20 * Minute, "Pending"⟩]) =
      Run.ret (["pod: foo-pod in namespace: foo is in pod status phase Pending "], none) := by
  obtain ⟨failures, hrun, hfailures, -⟩ :=
    unhealthy_old_pods_reported ⟨staticClient [⟨"foo-pod", "foo", exampleNow - 20 * Minute, "Pending"⟩]⟩
      (exampleWorld "10m" "" [⟨"foo-pod", "foo", exampleNow - 20 * Minute, "Pending"⟩])
      [⟨"foo-pod", "foo", exampleNow - 20 * Minute, "Pending"⟩] (10 * Minute)
      (by rfl) (by rfl) (by decide) (by decide)
  rw [hrun, hfailures]
  decide

/-- C1, counterexample: the skip duration "-9223372036854775808ns" parses to
the least duration, whose negation wraps, so the barrier lies before the
evaluation time; the Pending pod created 20 minutes earlier is not after
`now - skipDuration`, and the list returned is empty. -/
theorem least_duration_reports_nothing :
    ParseDuration "-9223372036854775808ns" = .ok minInt64 ∧
    ¬ (exampleNow - 20 * Minute > exampleNow - minInt64) ∧
    findPodsNotRunning ⟨staticClient [⟨"foo-pod", "foo", exampleNow - 20 * Minute, "Pending"⟩]⟩
        (exampleWorld "-9223372036854775808ns" "" [⟨"foo-pod", "foo", exampleNow - 20 * Minute, "Pending"⟩]) =
      Run.ret ([], none) :=
  ⟨by rfl, by decide, by decide⟩

/-- C2: when the list call and the parse succeed, a pod whose creation
timestamp is after `now - skipDuration` adds nothing, whatever its phase: the
result is the one for the input without those pods, and an input made only of
them gives the empty list. -/
theorem young_pods_skipped (o : Options) (w : World) (pods : List Pod) (d : Int)
    (hlist : o.client w.TARGET_NAMESPACE LabelSelector = .ok pods)
    (hparse : w.ParseDuration w.SKIP_DURATION = .ok d)
    (hmin : minInt64 ≤ d) (hmax : d ≤ maxInt64) :
    findPodsNotRunning o w =
        findPodsNotRunning
          ⟨fun _ _ => .ok (pods.filter fun p => decide (¬ p.CreationTimestamp > w.Now - d))⟩ w ∧
      ((∀ p ∈ pods, p.CreationTimestamp > w.Now - d) →
        findPodsNotRunning o w = Run.ret ([], none)) := by
  have hb : skipBarrier w.Now d ≤ w.Now - d := by
    have := negDuration_le d hmin hmax
    simp only [skipBarrier, Add]; omega
  rw [findPodsNotRunning_ok o w pods d hlist hparse]
  constructor
  · rw [findPodsNotRunning_ok _ w _ d rfl hparse, podLoop_filter]
    intro p _ hk
    have hk2 : p.CreationTimestamp > w.Now - d := by simpa using hk
    intro h
    exact h.1 (by omega)
  · intro hall
    rw [podLoop_nil_of]
    intro p hp h
    have := hall p hp
    exact h.1 (by omega)

/-- C2, witness: a Pending pod created 5 minutes before the evaluation, with
skip duration 10m, gives the empty list. -/
theorem young_pods_skipped_witness :
    findPodsNotRunning ⟨staticClient [⟨"foo-pod", "foo", exampleNow - 5 * Minute, "Pending"⟩]⟩
        (exampleWorld "10m" "" [⟨"foo-pod", "foo", exampleNow - 5 * Minute, "Pending"⟩]) =
      Run.ret ([], none) :=
  (young_pods_skipped ⟨staticClient [⟨"foo-pod", "foo", exampleNow - 5 * Minute, "Pending"⟩]⟩
    (exampleWorld "10m" "" [⟨"foo-pod", "foo", exampleNow - 5 * Minute, "Pending"⟩])
    [⟨"foo-pod", "foo", exampleNow - 5 * Minute, "Pending"⟩] (10 * Minute)
    (by rfl) (by rfl) (by decide) (by decide)).2 (by decide)

/-- C3: when the list call and the parse succeed, a Running or Succeeded pod
adds nothing, whatever its age: the result is the one for the input without
those pods, and an input made only of them gives the empty list. -/
theorem healthy_pods_not_reported (o : Options) (w : World) (pods : List Pod) (d : Int)
    (hlist : o.client w.TARGET_NAMESPACE LabelSelector = .ok pods)
    (hparse : w.ParseDuration w.SKIP_DURATION = .ok d) :
    findPodsNotRunning o w =
        findPodsNotRunning
          ⟨fun _ _ => .ok (pods.filter fun p =>
            decide (¬ (p.Phase = "Running" ∨ p.Phase = "Succeeded")))⟩ w ∧
      ((∀ p ∈ pods, p.Phase = "Running" ∨ p.Phase = "Succeeded") →
        findPodsNotRunning o w = Run.ret ([], none)) := by
  have key : ∀ p : Pod, (p.Phase = "Running" ∨ p.Phase = "Succeeded") →
      ¬ (p.Phase = PodPending ∨ p.Phase = PodFailed ∨ p.Phase = PodUnknown) := by
    intro p h
    rcases h with h | h <;> rw [h] <;> decide
  rw [findPodsNotRunning_ok o w pods d hlist hparse]
  constructor
  · rw [findPodsNotRunning_ok _ w _ d rfl hparse, podLoop_filter]
    intro p _ hk h
    exact key p (not_not.mp (of_decide_eq_false hk)) h.2
  · intro hall
    rw [podLoop_nil_of]
    intro p hp h
    exact key p (hall p hp) h.2

/-- C3, witness: a Running and a Succeeded pod, both an hour old, with skip
duration 10m. -/
theorem healthy_pods_not_reported_witness :
    findPodsNotRunning
        ⟨staticClient [⟨"a", "foo", exampleNow - 60 * Minute, "Running"⟩,
          ⟨"b", "bar", exampleNow - 60 * Minute, "Succeeded"⟩]⟩
        (exampleWorld "10m" ""
          [⟨"a", "foo", exampleNow - 60 * Minute, "Running"⟩,
            ⟨"b", "bar", exampleNow - 60 * Minute, "Succeeded"⟩]) =
      Run.ret ([], none) :=
  (healthy_pods_not_reported
    ⟨staticClient [⟨"a", "foo", exampleNow - 60 * Minute, "Running"⟩,
      ⟨"b", "bar", exampleNow - 60 * Minute, "Succeeded"⟩]⟩
    (exampleWorld "10m" ""
      [⟨"a", "foo", exampleNow - 60 * Minute, "Running"⟩,
        ⟨"b", "bar", exampleNow - 60 * Minute, "Succeeded"⟩])
    [⟨"a", "foo", exampleNow - 60 * Minute, "Running"⟩,
      ⟨"b", "bar", exampleNow - 60 * Minute, "Succeeded"⟩] (10 * Minute)
    (by rfl) (by rfl)).2 (by decide)

/-- C4: with the same skip duration and evaluation time, the list for
`xs ++ ys` is the list for `xs` followed by the list for `ys`. -/
theorem failures_keep_input_order (w : World) (d : Int) (xs ys : List Pod)
    (hparse : w.ParseDuration w.SKIP_DURATION = .ok d) :
    ∃ fx fy : List String,
      findPodsNotRunning ⟨fun _ _ => .ok xs⟩ w = Run.ret (fx, none) ∧
      findPodsNotRunning ⟨fun _ _ => .ok ys⟩ w = Run.ret (fy, none) ∧
      findPodsNotRunning ⟨fun _ _ => .ok (xs ++ ys)⟩ w = Run.ret (fx ++ fy, none) := by
  refine ⟨_, _, findPodsNotRunning_ok _ w xs d rfl hparse,
    findPodsNotRunning_ok _ w ys d rfl hparse, ?_⟩
  rw [findPodsNotRunning_ok _ w (xs ++ ys) d rfl hparse]
  simp only [podLoop_eq, List.filter_append, List.map_append]

/-- C4, witness: bar-pod before foo-pod in the input, both Pending and past
the threshold, gives the bar-pod entry before the foo-pod entry; with the two
pods the other way round the entries come the other way round, so the list is
not sorted. -/
theorem failures_keep_input_order_witness :
    findPodsNotRunning
        ⟨fun _ _ => .ok ([⟨"bar-pod", "bar", zeroTime, "Pending"⟩] ++ [⟨"foo-pod", "foo", zeroTime, "Pending"⟩])⟩
        (exampleWorld "10m" "" []) =
      Run.ret (["pod: bar-pod in namespace: bar is in pod status phase Pending ",
        "pod: foo-pod in namespace: foo is in pod status phase Pending "], none) ∧
    findPodsNotRunning
        ⟨fun _ _ => .ok ([⟨"foo-pod", "foo", zeroTime, "Pending"⟩] ++ [⟨"bar-pod", "bar", zeroTime, "Pending"⟩])⟩
        (exampleWorld "10m" "" []) =
      Run.ret (["pod: foo-pod in namespace: foo is in pod status phase Pending ",
        "pod: bar-pod in namespace: bar is in pod status phase Pending "], none) := by
  obtain ⟨fx, fy, hx, hy, hxy⟩ :=
    failures_keep_input_order (exampleWorld "10m" "" []) (10 * Minute)
      [⟨"bar-pod", "bar", zeroTime, "Pending"⟩] [⟨"foo-pod", "foo", zeroTime, "Pending"⟩] (by rfl)
  obtain ⟨gx, gy, kx, ky, kxy⟩ :=
    failures_keep_input_order (exampleWorld "10m" "" []) (10 * Minute)
      [⟨"foo-pod", "foo", zeroTime, "Pending"⟩] [⟨"bar-pod", "bar", zeroTime, "Pending"⟩] (by rfl)
  have hx2 : Run.ret (fx, (none : Option String)) =
      Run.ret (["pod: bar-pod in namespace: bar is in pod status phase Pending "], none) :=
    hx.symm.trans (by decide)
  have hy2 : Run.ret (fy, (none : Option String)) =
      Run.ret (["pod: foo-pod in namespace: foo is in pod status phase Pending "], none) :=
    hy.symm.trans (by decide)
  have kx2 : Run.ret (gx, (none : Option String)) =
      Run.ret (["pod: foo-pod in namespace: foo is in pod status phase Pending "], none) :=
    kx.symm.trans (by decide)
  have ky2 : Run.ret (gy, (none : Option String)) =
      Run.ret (["pod: bar-pod in namespace: bar is in pod status phase Pending "], none) :=
    ky.symm.trans (by decide)
  simp only [Run.ret, Run.mk.injEq, Ctl.returned.injEq, Prod.mk.injEq, and_true, true_and]
    at hx2 hy2 kx2 ky2
  rw [hxy, kxy, hx2, hy2, kx2, ky2]
  exact ⟨rfl, rfl⟩

/-- C5, as amended: when the list call succeeds and the skip duration does not
parse, `findPodsNotRunning` evaluates no pod and does not return: whatever the
pods, it passes the one-message list of the parse failure to `ReportFailure`
and ends the process with status 1; no error value and no failure list reach
the caller, and no pod entry is reported. -/
theorem unparsable_skip_duration_fails (o : Options) (w : World) (pods : List Pod) (e : String)
    (hlist : o.client w.TARGET_NAMESPACE LabelSelector = .ok pods)
    (hparse : w.ParseDuration w.SKIP_DURATION = .error e) :
    findPodsNotRunning o w =
        ⟨[.ReportFailure ["failed to parse skip duration: " ++ e]], .exited 1⟩ ∧
      findPodsNotRunning o w = findPodsNotRunning ⟨fun _ _ => .ok []⟩ w ∧
      (∀ fs err, (findPodsNotRunning o w).ctl ≠ .returned (fs, err)) ∧
      ∀ p : Pod, failureEntry p ∉ ["failed to parse skip duration: " ++ e] := by
  have h := findPodsNotRunning_parse_error o w pods e hlist hparse
  refine ⟨h, ?_, ?_, ?_⟩
  · rw [h, findPodsNotRunning_parse_error _ w [] e rfl hparse]
  · intro fs err hret
    rw [h] at hret
    cases hret
  · intro p hp
    exact failureEntry_ne_parse_failure p e (List.mem_singleton.mp hp)

/-- C5, witness: the skip duration "not-a-duration" with the two Pending pods
of the test fixture, both far past any threshold. -/
theorem unparsable_skip_duration_fails_witness :
    ParseDuration "not-a-duration" = .error (invalidDuration "not-a-duration") ∧
    findPodsNotRunning ⟨staticClient getTestPods⟩ (exampleWorld "not-a-duration" "" getTestPods) =
      ⟨[.ReportFailure ["failed to parse skip duration: " ++ invalidDuration "not-a-duration"]],
        .exited 1⟩ :=
  ⟨by rfl,
    (unparsable_skip_duration_fails ⟨staticClient getTestPods⟩
      (exampleWorld "not-a-duration" "" getTestPods) getTestPods
      (invalidDuration "not-a-duration") (by rfl) (by rfl)).1⟩

/-- C5, counterexample: with the skip duration "not-a-duration" and the two
old Pending pods of the test fixture, `findPodsNotRunning` does not hand an
error and an empty failure list back to its caller: it ends the process with
status 1, and the one list that leaves it, the argument of `ReportFailure`, is
not empty. -/
theorem unparsable_skip_duration_never_returns :
    ParseDuration "not-a-duration" = .error (invalidDuration "not-a-duration") ∧
    (findPodsNotRunning ⟨staticClient getTestPods⟩
        (exampleWorld "not-a-duration" "" getTestPods)).ctl = .exited 1 ∧
    (findPodsNotRunning ⟨staticClient getTestPods⟩
        (exampleWorld "not-a-duration" "" getTestPods)).calls =
      [.ReportFailure ["failed to parse skip duration: " ++ invalidDuration "not-a-duration"]] ∧
    ¬ ∃ fs err, findPodsNotRunning ⟨staticClient getTestPods⟩
        (exampleWorld "not-a-duration" "" getTestPods) = Run.ret (fs, err) := by
  have hctl : (findPodsNotRunning ⟨staticClient getTestPods⟩
      (exampleWorld "not-a-duration" "" getTestPods)).ctl = .exited 1 := by decide
  refine ⟨by rfl, hctl, by decide, ?_⟩
  rintro ⟨fs, err, h⟩
  rw [h] at hctl
  cases hctl

/-- C6: when the list call and the parse succeed, a pod whose phase is none of
Pending, Running, Succeeded, Failed, Unknown adds nothing and causes no error,
whatever its age: the result is the one for the input without those pods, and
an input made only of them gives the empty list and no error. -/
theorem unrecognized_phase_ignored (o : Options) (w : World) (pods : List Pod) (d : Int)
    (hlist : o.client w.TARGET_NAMESPACE LabelSelector = .ok pods)
    (hparse : w.ParseDuration w.SKIP_DURATION = .ok d) :
    findPodsNotRunning o w =
        findPodsNotRunning
          ⟨fun _ _ => .ok (pods.filter fun p =>
            decide (p.Phase = "Pending" ∨ p.Phase = "Running" ∨ p.Phase = "Succeeded" ∨
              p.Phase = "Failed" ∨ p.Phase = "Unknown"))⟩ w ∧
      ((∀ p ∈ pods, p.Phase ≠ "Pending" ∧ p.Phase ≠ "Running" ∧ p.Phase ≠ "Succeeded" ∧
          p.Phase ≠ "Failed" ∧ p.Phase ≠ "Unknown") →
        findPodsNotRunning o w = Run.ret ([], none)) := by
  rw [findPodsNotRunning_ok o w pods d hlist hparse]
  constructor
  · rw [findPodsNotRunning_ok _ w _ d rfl hparse, podLoop_filter]
    intro p _ hk h
    have hk2 := of_decide_eq_false hk
    rcases h.2 with h | h | h
    · exact hk2 (Or.inl h)
    · exact hk2 (Or.inr (Or.inr (Or.inr (Or.inl h))))
    · exact hk2 (Or.inr (Or.inr (Or.inr (Or.inr h))))
  · intro hall
    rw [podLoop_nil_of]
    intro p hp h
    obtain ⟨h1, -, -, h4, h5⟩ := hall p hp
    rcases h.2 with h | h | h
    · exact h1 h
    · exact h4 h
    · exact h5 h

/-- C6, witness: pods an hour old whose phases are the empty string and a
value no release defines. -/
theorem unrecognized_phase_ignored_witness :
    findPodsNotRunning
        ⟨staticClient [⟨"a", "foo", exampleNow - 60 * Minute, ""⟩,
          ⟨"b", "bar", exampleNow - 60 * Minute, "Terminating"⟩]⟩
        (exampleWorld "10m" ""
          [⟨"a", "foo", exampleNow - 60 * Minute, ""⟩,
            ⟨"b", "bar", exampleNow - 60 * Minute, "Terminating"⟩]) =
      Run.ret ([], none) :=
  (unrecognized_phase_ignored
    ⟨staticClient [⟨"a", "foo", exampleNow - 60 * Minute, ""⟩,
      ⟨"b", "bar", exampleNow - 60 * Minute, "Terminating"⟩]⟩
    (exampleWorld "10m" ""
      [⟨"a", "foo", exampleNow - 60 * Minute, ""⟩,
        ⟨"b", "bar", exampleNow - 60 * Minute, "Terminating"⟩])
    [⟨"a", "foo", exampleNow - 60 * Minute, ""⟩,
      ⟨"b", "bar", exampleNow - 60 * Minute, "Terminating"⟩] (10 * Minute)
    (by rfl) (by rfl)).2 (by decide)

/-- C7, as amended: a run that cannot create the Kubernetes client makes no
reporter call; every other run makes exactly one, `ReportSuccess` when
`findPodsNotRunning` returns the empty list and no error, and `ReportFailure`
otherwise: with the failure list when that is non-empty, with the message of
the error when `findPodsNotRunning` returns one (its list is then empty), and
from inside `findPodsNotRunning` when the skip duration does not parse. -/
theorem one_reporter_call_per_run (w : World) :
    (∀ e, w.createKubeClient w.KUBECONFIG = .error e → (main w).calls = []) ∧
    ∀ client, w.createKubeClient w.KUBECONFIG = .ok client →
      ((main w).calls = [.ReportSuccess] ∨ ∃ msgs, (main w).calls = [.ReportFailure msgs]) ∧
      ((main w).calls = [.ReportSuccess] ↔
        findPodsNotRunning ⟨client⟩ w = Run.ret ([], none)) ∧
      (∀ fs, fs ≠ [] → findPodsNotRunning ⟨client⟩ w = Run.ret (fs, none) →
        (main w).calls = [.ReportFailure fs]) ∧
      (∀ fs e, findPodsNotRunning ⟨client⟩ w = Run.ret (fs, some e) →
        fs = [] ∧ (main w).calls = [.ReportFailure [e]]) ∧
      (∀ calls status, findPodsNotRunning ⟨client⟩ w = ⟨calls, .exited status⟩ →
        (main w).calls = calls ∧ ∃ msg, calls = [.ReportFailure [msg]]) := by
  constructor
  · intro e he
    simp only [main, he, Run.osExit]
  · intro client hclient
    have hfail : ∀ fs, fs ≠ [] → findPodsNotRunning ⟨client⟩ w = Run.ret (fs, none) →
        (main w).calls = [.ReportFailure fs] := by
      intro fs hne h
      rw [main_of_failures w client fs hclient h hne]
    have herr : ∀ fs e, findPodsNotRunning ⟨client⟩ w = Run.ret (fs, some e) →
        fs = [] ∧ (main w).calls = [.ReportFailure [e]] := by
      intro fs e h
      refine ⟨?_, by rw [main_of_error w client fs e hclient h]⟩
      rcases findPodsNotRunning_ends ⟨client⟩ w with ⟨fs2, err2, h2, hor⟩ | ⟨msg, h2⟩
      · rw [h] at h2
        simp only [Run.ret, Run.mk.injEq, Ctl.returned.injEq, Prod.mk.injEq, true_and] at h2
        rcases hor with hor | hor
        · rw [hor] at h2; exact absurd h2.2 (by simp)
        · rw [h2.1, hor]
      · rw [h] at h2
        simp [Run.ret] at h2
    have hexit : ∀ calls status, findPodsNotRunning ⟨client⟩ w = ⟨calls, .exited status⟩ →
        (main w).calls = calls ∧ ∃ msg, calls = [.ReportFailure [msg]] := by
      intro calls status h
      refine ⟨by rw [main_of_exit w client calls status hclient h], ?_⟩
      rcases findPodsNotRunning_ends ⟨client⟩ w with ⟨fs2, err2, h2, -⟩ | ⟨msg, h2⟩
      · rw [h] at h2
        simp [Run.ret] at h2
      · rw [h] at h2
        simp only [Run.mk.injEq] at h2
        exact ⟨msg, h2.1⟩
    refine ⟨?_, ?_, hfail, herr, hexit⟩
    · rcases findPodsNotRunning_ends ⟨client⟩ w with ⟨fs, err, h, -⟩ | ⟨msg, h⟩
      · cases err with
        | some e => exact Or.inr ⟨_, (herr fs e h).2⟩
        | none =>
          by_cases hfs : fs = []
          · left
            rw [hfs] at h
            rw [main_of_healthy w client hclient h]
          · exact Or.inr ⟨_, hfail fs hfs h⟩
      · exact Or.inr ⟨_, (hexit _ _ h).1.trans rfl⟩
    · constructor
      · intro hcalls
        rcases findPodsNotRunning_ends ⟨client⟩ w with ⟨fs, err, h, -⟩ | ⟨msg, h⟩
        · cases err with
          | some e =>
            rw [(herr fs e h).2] at hcalls
            simp at hcalls
          | none =>
            by_cases hfs : fs = []
            · rw [h, hfs]
            · rw [hfail fs hfs h] at hcalls
              simp at hcalls
        · rw [(hexit _ _ h).1] at hcalls
          simp at hcalls
      · intro h
        rw [main_of_healthy w client hclient h]

/-- C7, witness: the run over the test fixture with skip duration 10m reports
the two Pending pods in one `ReportFailure` call, and the run over no pods
makes the one call `ReportSuccess`. -/
theorem one_reporter_call_per_run_witness :
    (main (exampleWorld "10m" "" getTestPods)).calls =
        [.ReportFailure ["pod: bar-pod in namespace: bar is in pod status phase Pending ",
          "pod: foo-pod in namespace: foo is in pod status phase Pending "]] ∧
    (main (exampleWorld "10m" "" [])).calls = [.ReportSuccess] :=
  ⟨((one_reporter_call_per_run (exampleWorld "10m" "" getTestPods)).2
      (staticClient getTestPods) (by rfl)).2.2.1 _ (by decide) (by decide),
    ((one_reporter_call_per_run (exampleWorld "10m" "" [])).2
      (staticClient []) (by rfl)).2.1.2 (by decide)⟩

/-- C7, counterexample: when the list call fails, the failure list produced by
`findPodsNotRunning` is empty and the run calls `ReportFailure`, not
`ReportSuccess`; and when the client cannot be created the run makes no
reporter call at all. -/
theorem empty_list_reported_as_failure :
    findPodsNotRunning ⟨fun _ _ => .error "connection refused"⟩ unreachableCluster =
        Run.ret ([], some "connection refused") ∧
    (main unreachableCluster).calls = [.ReportFailure ["connection refused"]] ∧
    (main unreachableCluster).calls ≠ [.ReportSuccess] ∧
    (main missingKubeConfig).calls = [] :=
  ⟨by decide, by decide, by decide, by decide⟩

/-- C8: the exit status of a run is 0 exactly when the client was created,
`findPodsNotRunning` returned the empty list and no error, and `ReportSuccess`
returned no error; in every other run it is 1. -/
theorem exit_status_zero_iff (w : World) :
    (exitStatus (main w) = 0 ↔
      ∃ client, w.createKubeClient w.KUBECONFIG = .ok client ∧
        findPodsNotRunning ⟨client⟩ w = Run.ret ([], none) ∧ w.ReportSuccess = none) ∧
    (exitStatus (main w) = 0 ∨ exitStatus (main w) = 1) := by
  cases hc : w.createKubeClient w.KUBECONFIG with
  | error e =>
    have hm : exitStatus (main w) = 1 := by simp only [main, hc, Run.osExit, exitStatus]
    refine ⟨⟨fun h => ?_, fun ⟨_, h, _⟩ => ?_⟩, Or.inr hm⟩
    · rw [hm] at h; exact absurd h (by decide)
    · cases h
  | ok client =>
    have key : (exitStatus (main w) = 0 ↔
          findPodsNotRunning ⟨client⟩ w = Run.ret ([], none) ∧ w.ReportSuccess = none) ∧
        (exitStatus (main w) = 0 ∨ exitStatus (main w) = 1) := by
      rcases findPodsNotRunning_ends ⟨client⟩ w with ⟨fs, err, h, -⟩ | ⟨msg, h⟩
      · cases err with
        | some e =>
          rw [main_of_error w client fs e hc h, h]
          simp [exitStatus, Run.ret]
        | none =>
          by_cases hfs : fs = []
          · subst hfs
            rw [main_of_healthy w client hc h, h]
            cases w.ReportSuccess <;> simp [exitStatus]
          · rw [main_of_failures w client fs hc h hfs, h]
            simp [exitStatus, Run.ret, hfs]
      · rw [main_of_exit w client _ _ hc h, h]
        simp [exitStatus, Run.ret]
    refine ⟨⟨fun h => ⟨client, rfl, key.1.mp h⟩, fun ⟨c, hc2, h⟩ => ?_⟩, key.2⟩
    cases hc2
    exact key.1.mpr h

/-- C9, as amended: the sign of the skip duration is not checked. When the
list call succeeds and the skip duration parses to a negative duration,
`findPodsNotRunning` returns without error the entries of the Pending, Failed
and Unknown pods that are not after the barrier `checkTime.Add(-skipDuration)`;
for every negative duration but the least `int64`, that barrier is
`now - skipDuration`, later than the evaluation time. -/
theorem negative_skip_duration_accepted (o : Options) (w : World) (pods : List Pod) (d : Int)
    (hlist : o.client w.TARGET_NAMESPACE LabelSelector = .ok pods)
    (hparse : w.ParseDuration w.SKIP_DURATION = .ok d)
    (hneg : d < 0) :
    findPodsNotRunning o w = Run.ret
        ((pods.filter fun p => decide (¬ p.CreationTimestamp > skipBarrier w.Now d ∧
          (p.Phase = "Pending" ∨ p.Phase = "Failed" ∨ p.Phase = "Unknown"))).map failureEntry,
          none) ∧
      (minInt64 < d → skipBarrier w.Now d = w.Now - d ∧ w.Now < skipBarrier w.Now d) := by
  constructor
  · rw [findPodsNotRunning_ok o w pods d hlist hparse, podLoop_eq]; rfl
  · intro hmin
    have hb : skipBarrier w.Now d = w.Now - d := by
      rw [skipBarrier, Add, negDuration_eq d hmin (by unfold maxInt64; omega)]; ring
    rw [hb]
    exact ⟨rfl, by omega⟩

/-- C9, witness: with skip duration "-10m" a Pending pod created one minute
before the evaluation is reported against a barrier ten minutes after it. -/
theorem negative_skip_duration_accepted_witness :
    ParseDuration "-10m" = .ok (-10 * Minute) ∧
    findPodsNotRunning ⟨staticClient [⟨"foo-pod", "foo", exampleNow - 1 * Minute, "Pending"⟩]⟩
        (exampleWorld "-10m" "" [⟨"foo-pod", "foo", exampleNow - 1 * Minute, "Pending"⟩]) =
      Run.ret (["pod: foo-pod in namespace: foo is in pod status phase Pending "], none) ∧
    skipBarrier exampleNow (-10 * Minute) = exampleNow + 10 * Minute := by
  have h := negative_skip_duration_accepted
    ⟨staticClient [⟨"foo-pod", "foo", exampleNow - 1 * Minute, "Pending"⟩]⟩
    (exampleWorld "-10m" "" [⟨"foo-pod", "foo", exampleNow - 1 * Minute, "Pending"⟩])
    [⟨"foo-pod", "foo", exampleNow - 1 * Minute, "Pending"⟩] (-10 * Minute)
    (by rfl) (by rfl) (by decide)
  refine ⟨by rfl, ?_, ?_⟩
  · rw [h.1]; decide
  · exact (h.2 (by decide)).1.trans (by decide)

/-- C9, counterexample: the skip duration "-10m" parses to a negative
duration and `findPodsNotRunning` returns no error: it places the barrier after
the evaluation time and returns the entry of a Pending pod created one minute
before the evaluation. -/
theorem negative_skip_duration_not_rejected :
    ParseDuration "-10m" = .ok (-600000000000) ∧
    findPodsNotRunning ⟨staticClient [⟨"foo-pod", "foo", exampleNow - 1 * Minute, "Pending"⟩]⟩
        (exampleWorld "-10m" "" [⟨"foo-pod", "foo", exampleNow - 1 * Minute, "Pending"⟩]) =
      Run.ret (["pod: foo-pod in namespace: foo is in pod status phase Pending "], none) ∧
    (-600000000000 : Int) < 0 ∧
    skipBarrier exampleNow (-600000000000) > exampleNow :=
  ⟨by rfl, by decide, by decide, by decide⟩

/-- C10: `findPodsNotRunning` reads its client only at the namespace given by
`TARGET_NAMESPACE` (the empty string, all namespaces, when unset). Over an
inventory queried by namespace, when the skip duration parses: for a non-empty
target the result is the one for the pods of that namespace, and every entry
returned is the entry of a pod of that namespace; for an empty target the
result is the one for all the pods, and every Pending, Failed or Unknown pod
not after the barrier, of whatever namespace, has its entry in the list. -/
theorem target_namespace_scopes_query (cluster : List Pod) (w : World) (d : Int)
    (hparse : w.ParseDuration w.SKIP_DURATION = .ok d) :
    (∀ o o2 : Options,
      o.client w.TARGET_NAMESPACE LabelSelector = o2.client w.TARGET_NAMESPACE LabelSelector →
      findPodsNotRunning o w = findPodsNotRunning o2 w) ∧
    (w.TARGET_NAMESPACE ≠ "" →
      findPodsNotRunning ⟨inventory cluster⟩ w =
          findPodsNotRunning
            ⟨fun _ _ => .ok (cluster.filter fun p => decide (p.Namespace = w.TARGET_NAMESPACE))⟩ w ∧
        ∃ failures, findPodsNotRunning ⟨inventory cluster⟩ w = Run.ret (failures, none) ∧
          ∀ entry ∈ failures, ∃ p ∈ cluster,
            p.Namespace = w.TARGET_NAMESPACE ∧ entry = failureEntry p) ∧
    (w.TARGET_NAMESPACE = "" →
      findPodsNotRunning ⟨inventory cluster⟩ w = findPodsNotRunning ⟨fun _ _ => .ok cluster⟩ w ∧
        ∃ failures, findPodsNotRunning ⟨inventory cluster⟩ w = Run.ret (failures, none) ∧
          ∀ p ∈ cluster, ¬ p.CreationTimestamp > skipBarrier w.Now d →
            (p.Phase = "Pending" ∨ p.Phase = "Failed" ∨ p.Phase = "Unknown") →
            failureEntry p ∈ failures) := by
  refine ⟨?_, ?_, ?_⟩
  · intro o o2 h
    simp only [findPodsNotRunning, queried_namespace, h]
  · intro hne
    have hinv : inventory cluster w.TARGET_NAMESPACE LabelSelector =
        .ok (cluster.filter fun p => decide (p.Namespace = w.TARGET_NAMESPACE)) := by
      simp only [inventory, NamespaceAll, hne, false_or]
    refine ⟨?_, _, findPodsNotRunning_ok _ w _ d hinv hparse, ?_⟩
    · rw [findPodsNotRunning_ok _ w _ d hinv hparse, findPodsNotRunning_ok _ w _ d rfl hparse]
    · intro entry hentry
      rw [podLoop_eq] at hentry
      obtain ⟨p, hp, hpe⟩ := List.mem_map.mp hentry
      have hp2 := List.mem_filter.mp (List.mem_filter.mp hp).1
      exact ⟨p, hp2.1, of_decide_eq_true hp2.2, hpe.symm⟩
  · intro he
    have hinv : inventory cluster w.TARGET_NAMESPACE LabelSelector = .ok cluster := by
      simp [inventory, NamespaceAll, he]
    refine ⟨?_, _, findPodsNotRunning_ok _ w _ d hinv hparse, ?_⟩
    · rw [findPodsNotRunning_ok _ w _ d hinv hparse, findPodsNotRunning_ok _ w _ d rfl hparse]
    · intro p hp hold hphase
      rw [podLoop_eq]
      exact List.mem_map.mpr ⟨p, List.mem_filter.mpr ⟨hp, decide_eq_true ⟨hold, hphase⟩⟩, rfl⟩

/-- C10, witness: the two cases of `TestFindPodsNotRunning`. Over the pods
foo-pod in foo and bar-pod in bar of the test fixture, both Pending, the target
"foo" gives only the foo-pod entry and the empty target gives both entries. -/
theorem target_namespace_scopes_query_witness :
    findPodsNotRunning ⟨inventory getTestPods⟩ (exampleWorld "10m" "foo" getTestPods) =
        Run.ret (["pod: foo-pod in namespace: foo is in pod status phase Pending "], none) ∧
    findPodsNotRunning ⟨inventory getTestPods⟩ (exampleWorld "10m" "" getTestPods) =
        Run.ret (["pod: bar-pod in namespace: bar is in pod status phase Pending ",
          "pod: foo-pod in namespace: foo is in pod status phase Pending "], none) := by
  have hfoo := ((target_namespace_scopes_query getTestPods
    (exampleWorld "10m" "foo" getTestPods) (10 * Minute) (by rfl)).2.1 (by decide)).1
  have hall := ((target_namespace_scopes_query getTestPods
    (exampleWorld "10m" "" getTestPods) (10 * Minute) (by rfl)).2.2 (by decide)).1
  exact ⟨hfoo.trans (by decide), hall.trans (by decide)⟩

end PodStatusCheck
